import Mathlib

/-!
Shallow embedding of the derived-series computation pipeline of
`indice-paura.py` (a Streamlit dashboard computing the VIX/S&P500 ratio,
its 20-day moving average, Bollinger bands and summary statistics).

Modelling conventions:
* A fetched price series (the close-price column extracted from one
  `yf.download` result) is a list of `(timestamp, Option ℚ)` pairs:
  `none` stands for a NaN entry, `some q` for a present float value.
  Exact rationals stand in for IEEE doubles; the claims settled here do
  not depend on rounding.
* A pandas `DataFrame` is a column store: a shared index list plus one
  list per column, all of the same length.  Rolling columns carry
  `Option` entries, `none` standing for NaN in the warm-up region.
* `Real.sqrt` models `sqrt` in the standard-deviation computation, so
  the definitions touching it are `noncomputable`; everything up to the
  variance stays in `ℚ` and is executable.
* `get_data` returning `None` after `st.error`/`st.info` is modelled as
  `Except ErrMsg Table`, the two distinct error messages of the source
  becoming the two constructors of `ErrMsg`.
-/

abbrev Timestamp := Int

/-- One fetched close-price series: time-indexed, possibly with NaN holes. -/
abbrev PriceSeries := List (Timestamp × Option ℚ)

/-- Models `combined_data = pd.DataFrame(); combined_data['VIX'] = ...;
`combined_data['SP500'] = ...; combined_data.dropna()` — assigning the
second column aligns it on the first column's index, so after `dropna`
the rows are exactly the timestamps of `a` whose value is present and
which also occur in `b` with a present value. -/
def alignRow (b : PriceSeries) (p : Timestamp × Option ℚ) :
    Option (Timestamp × ℚ × ℚ) :=
  match p.2, List.lookup p.1 b with
  | some va, some (some vb) => some (p.1, va, vb)
  | _, _ => none

/-- The aligned rows themselves: one row per timestamp of `a` that has a
present value and whose lookup in `b` also has a present value. -/
def alignSeries (a b : PriceSeries) : List (Timestamp × ℚ × ℚ) :=
  a.filterMap (alignRow b)

/-- Arithmetic mean of a list, as computed by pandas `.mean()`
(sum divided by count; the empty case never arises in the source when
defined entries are produced). -/
def listMean (l : List ℚ) : ℚ := l.sum / l.length

/-- The trailing window of width `w` ending at 0-based index `i`:
the last `min w (i+1)` elements among the first `i+1`. -/
def windowAt (w : Nat) (l : List ℚ) (i : Nat) : List ℚ :=
  (l.take (i + 1)).drop (i + 1 - w)

/-- Models `series.rolling(window=w).mean()`: NaN (here `none`) while fewer than
`w` observations are available, else the mean of the trailing window. -/
def rollingMean (w : Nat) (l : List ℚ) : List (Option ℚ) :=
  (List.range l.length).map (fun i =>
    if i + 1 < w then none else some (listMean (windowAt w l i)))

/-- Sample variance (`ddof=1`, pandas default): sum of squared deviations
from the mean, divided by `n - 1`. -/
def sampleVar (l : List ℚ) : ℚ :=
  ((l.map (fun x => (x - listMean l) ^ 2)).sum) / ((l.length : ℚ) - 1)

/-- Sample standard deviation, as `pandas .std()` computes it
(`ddof=1`): the square root of `sampleVar`. -/
noncomputable def sampleStd (l : List ℚ) : ℝ :=
  Real.sqrt ((sampleVar l : ℚ) : ℝ)

/-- Models `series.rolling(window=w).std()`: NaN while fewer than `w`
observations are available, else the sample standard deviation of the
trailing window. -/
noncomputable def rollingStd (w : Nat) (l : List ℚ) : List (Option ℝ) :=
  (List.range l.length).map (fun i =>
    if i + 1 < w then none else some (sampleStd (windowAt w l i)))

/-- Elementwise combination of two aligned NaN-carrying columns
(pandas arithmetic on two columns of the same frame): defined exactly
where both operands are. -/
def optionZipWith (f : α → β → γ) : List (Option α) → List (Option β) → List (Option γ) :=
  List.zipWith (fun a b =>
    match a, b with
    | some x, some y => some (f x y)
    | _, _ => none)

/-- Models `combined_data['BB_Upper'] = BB_Middle + rolling_std * K`
(the source fixes `bb_std = 2`; the band multiplier is kept as a
parameter `K`). -/
noncomputable def bollingerUpper (K : ℝ) (l : List ℚ) : List (Option ℝ) :=
  optionZipWith (fun (m : ℚ) (s : ℝ) => (m : ℝ) + s * K)
    (rollingMean 20 l) (rollingStd 20 l)

/-- Models `combined_data['BB_Lower'] = BB_Middle - rolling_std * K`. -/
noncomputable def bollingerLower (K : ℝ) (l : List ℚ) : List (Option ℝ) :=
  optionZipWith (fun (m : ℚ) (s : ℝ) => (m : ℝ) - s * K)
    (rollingMean 20 l) (rollingStd 20 l)

/-- The computed table returned by `get_data`: the pandas column store
with its shared timestamp index and the eight columns of the source. -/
structure Table where
  index : List Timestamp
  VIX : List ℚ
  SP500 : List ℚ
  Ratio : List ℚ
  Ratio_MA_20 : List (Option ℚ)
  BB_Middle : List (Option ℚ)
  BB_Upper : List (Option ℝ)
  BB_Lower : List (Option ℝ)

/-- The two distinct `st.error` messages of `get_data`'s failure paths:
"Impossibile scaricare i dati..." and "Nessun dato valido trovato...". -/
inductive ErrMsg
  | downloadFailed
  | noValidData
deriving DecidableEq

/-- Lines 82–95 of the source: ratio, 20-day moving average, Bollinger
middle/upper/lower columns, computed over the aligned rows. -/
noncomputable def computeTable (rows : List (Timestamp × ℚ × ℚ)) : Table :=
  let ratios := rows.map (fun r => r.2.1 / r.2.2 * 1000)
  { index := rows.map Prod.fst
    VIX := rows.map (fun r => r.2.1)
    SP500 := rows.map (fun r => r.2.2)
    Ratio := ratios
    Ratio_MA_20 := rollingMean 20 ratios
    BB_Middle := rollingMean 20 ratios
    BB_Upper := bollingerUpper 2 ratios
    BB_Lower := bollingerLower 2 ratios }

/-- Models `get_data(start_date, end_date)`: empty-download check, alignment and
`dropna`, empty-result check, then the derived columns.  `Except.error`
models `return None` after the corresponding `st.error` message. -/
noncomputable def get_data (vix_data sp500_data : PriceSeries) :
    Except ErrMsg Table :=
  if vix_data = [] ∨ sp500_data = [] then
    .error .downloadFailed
  else
    let combined := alignSeries vix_data sp500_data
    if combined = [] then
      .error .noValidData
    else
      .ok (computeTable combined)

/-- Models `data['Ratio'].std()` in the summary-statistics block (line 323):
pandas `Series.std()` with its default `ddof=1`, i.e. the sample
standard deviation of the full ratio series. -/
noncomputable def summaryStd (l : List ℚ) : ℝ := sampleStd l

/-- Population variance (divisor `n`), for comparison with the spec's
"population standard deviation" wording; not what the source computes. -/
def popVar (l : List ℚ) : ℚ :=
  ((l.map (fun x => (x - listMean l) ^ 2)).sum) / (l.length : ℚ)

/-- Population standard deviation (divisor `n`), the statistic the spec
claims for the summary block; stated from the spec's words for the
refinement comparison with `summaryStd`. -/
noncomputable def popStdSpec (l : List ℚ) : ℝ :=
  Real.sqrt ((popVar l : ℚ) : ℝ)

/-- Models `(data['Ratio'] <= current_ratio).mean() * 100` (line 366): the mean
of the boolean indicator column, scaled to a percentage. -/
def percentileRank (l : List ℚ) (v : ℚ) : ℚ :=
  listMean (l.map (fun x => if x ≤ v then 1 else 0)) * 100

/-- The four sidebar checkboxes (lines 39–42). -/
structure Toggles where
  show_ma : Bool
  show_bb : Bool
  show_vix : Bool
  show_sp500 : Bool

/-- The chart traces `main` adds to the figure, in order; which ones
appear depends only on the toggles. -/
inductive Trace
  | ratioLine
  | maLine
  | bbUpperLine
  | bbLowerLine
  | bbMiddleLine
  | vixLine
  | sp500Line
deriving DecidableEq

/-- The `fig.add_trace` calls of `main` (lines 165–256): the ratio trace
always, the others gated by the corresponding checkbox. -/
def chartTraces (tg : Toggles) : List Trace :=
  [Trace.ratioLine]
    ++ (if tg.show_ma then [Trace.maLine] else [])
    ++ (if tg.show_bb then [Trace.bbUpperLine, Trace.bbLowerLine, Trace.bbMiddleLine] else [])
    ++ (if tg.show_vix then [Trace.vixLine] else [])
    ++ (if tg.show_sp500 then [Trace.sp500Line] else [])

/-- One run of the app for fixed fetched inputs: the computed table (from
`get_data`, which does not receive the toggles) paired with the traces
drawn (which do). -/
noncomputable def appRun (tg : Toggles) (vix_data sp500_data : PriceSeries) :
    Except ErrMsg Table × List Trace :=
  (get_data vix_data sp500_data, chartTraces tg)

/-- pandas `.iloc[k]` on a column: positional access, negative indices
counting from the end; `none` models the `IndexError` raised when the
position is out of bounds. -/
def iloc (l : List ℚ) (k : Int) : Option ℚ :=
  let j : Int := if k < 0 then (l.length : Int) + k else k
  if j < 0 then none else l.get? j.toNat

/-- The possible outcomes of one `main` pass: the no-data error message
branch, or a fully rendered page. -/
inductive MainOutcome
  | noDataMsg
  | rendered
deriving DecidableEq

/-- Models `main()` (lines 104–388) up to the point every claim needs: fetch,
the `data is not None and not data.empty` guard, then the metric widgets
reading `iloc[-1]` and `iloc[-2]` of the VIX, SP500 and Ratio columns
(lines 114–145).  `none` models an exception escaping `main` (there is
no try/except around it in the source). -/
noncomputable def mainRun (vix_data sp500_data : PriceSeries) :
    Option MainOutcome :=
  match get_data vix_data sp500_data with
  | .error _ => some .noDataMsg
  | .ok t =>
    if t.index = [] then some .noDataMsg
    else
      match iloc t.VIX (-1), iloc t.VIX (-2),
            iloc t.SP500 (-1), iloc t.SP500 (-2),
            iloc t.Ratio (-1), iloc t.Ratio (-2) with
      | some _, some _, some _, some _, some _, some _ => some .rendered
      | _, _, _, _, _, _ => none

/-! ### Helper lemmas -/

theorem mem_of_lookup_eq_some {t : Timestamp} {v : Option ℚ} {b : PriceSeries}
    (h : List.lookup t b = some v) : (t, v) ∈ b := by
  induction b with
  | nil => simp at h
  | cons p tl ih =>
    obtain ⟨k, w⟩ := p
    rw [List.lookup_cons] at h
    rcases hk : t == k with _ | _
    · rw [hk] at h
      exact List.mem_cons_of_mem _ (ih h)
    · rw [hk] at h
      simp only [Option.some.injEq] at h
      simp only [beq_iff_eq] at hk
      subst hk h
      exact List.mem_cons_self _ _

theorem alignRow_eq_some {b : PriceSeries} {p : Timestamp × Option ℚ}
    {r : Timestamp × ℚ × ℚ} (h : alignRow b p = some r) :
    r.1 = p.1 ∧ p.2 = some r.2.1 ∧ List.lookup p.1 b = some (some r.2.2) := by
  unfold alignRow at h
  cases hpv : p.2 with
  | none => rw [hpv] at h; simp at h
  | some va =>
    rw [hpv] at h
    cases hlk : List.lookup p.1 b with
    | none => rw [hlk] at h; simp at h
    | some ob =>
      rw [hlk] at h
      cases ob with
      | none => simp at h
      | some vb =>
        simp only [Option.some.injEq] at h
        subst h
        exact ⟨rfl, rfl, rfl⟩

theorem mem_alignSeries {a b : PriceSeries} {r : Timestamp × ℚ × ℚ}
    (h : r ∈ alignSeries a b) :
    (r.1, some r.2.1) ∈ a ∧ (r.1, some r.2.2) ∈ b := by
  rw [alignSeries, List.mem_filterMap] at h
  obtain ⟨p, hp, hrow⟩ := h
  obtain ⟨h1, h2, h3⟩ := alignRow_eq_some hrow
  refine ⟨?_, ?_⟩
  · have : p = (r.1, some r.2.1) := by
      obtain ⟨pt, pv⟩ := p
      simp only at h1 h2
      simp [← h1, h2]
    rwa [this] at hp
  · rw [← h1] at h3
    exact mem_of_lookup_eq_some h3

theorem alignSeries_keys_sublist (a b : PriceSeries) :
    List.Sublist ((alignSeries a b).map Prod.fst) (a.map Prod.fst) := by
  induction a with
  | nil => simp [alignSeries]
  | cons p tl ih =>
    rw [alignSeries, List.filterMap_cons]
    cases hrow : alignRow b p with
    | none =>
      rw [List.map_cons]
      exact (ih :).cons _
    | some r =>
      rw [List.map_cons, List.map_cons]
      have h1 : r.1 = p.1 := (alignRow_eq_some hrow).1
      rw [h1]
      exact (ih :).cons₂ _

theorem length_rollingMean (w : Nat) (l : List ℚ) :
    (rollingMean w l).length = l.length := by
  simp [rollingMean]

theorem length_rollingStd (w : Nat) (l : List ℚ) :
    (rollingStd w l).length = l.length := by
  simp [rollingStd]

theorem length_optionZipWith (f : α → β → γ) (a : List (Option α))
    (b : List (Option β)) :
    (optionZipWith f a b).length = min a.length b.length := by
  simp [optionZipWith]

theorem optionZipWith_getElem? (f : α → β → γ) {a : List (Option α)}
    {b : List (Option β)} {i : Nat} {x : α} {y : β}
    (hx : a[i]? = some (some x)) (hy : b[i]? = some (some y)) :
    (optionZipWith f a b)[i]? = some (some (f x y)) := by
  induction a generalizing b i with
  | nil => simp at hx
  | cons a0 as ih =>
    cases b with
    | nil => simp at hy
    | cons b0 bs =>
      cases i with
      | zero =>
        simp only [List.getElem?_cons_zero, Option.some.injEq] at hx hy
        subst hx hy
        simp [optionZipWith]
      | succ n =>
        simp only [List.getElem?_cons_succ] at hx hy
        simpa [optionZipWith] using ih hx hy

theorem rollingMean_getElem?_of_ge {w : Nat} {l : List ℚ} {i : Nat}
    (hi : i < l.length) (hw : w ≤ i + 1) :
    (rollingMean w l)[i]? = some (some (listMean (windowAt w l i))) := by
  rw [rollingMean, List.getElem?_map, List.getElem?_range hi]
  simp [Nat.not_lt.mpr hw]

theorem rollingMean_getElem?_of_lt {w : Nat} {l : List ℚ} {i : Nat}
    (hi : i < l.length) (hw : i + 1 < w) :
    (rollingMean w l)[i]? = some none := by
  rw [rollingMean, List.getElem?_map, List.getElem?_range hi]
  simp [hw]

theorem rollingStd_getElem?_of_ge {w : Nat} {l : List ℚ} {i : Nat}
    (hi : i < l.length) (hw : w ≤ i + 1) :
    (rollingStd w l)[i]? = some (some (sampleStd (windowAt w l i))) := by
  rw [rollingStd, List.getElem?_map, List.getElem?_range hi]
  simp [Nat.not_lt.mpr hw]

theorem get_data_eq_ok {v s : PriceSeries} {t : Table}
    (h : get_data v s = .ok t) :
    v ≠ [] ∧ s ≠ [] ∧ alignSeries v s ≠ [] ∧
      t = computeTable (alignSeries v s) := by
  simp only [get_data] at h
  split at h
  · exact absurd h (by simp)
  · rename_i h1
    split at h
    · exact absurd h (by simp)
    · rename_i h2
      push_neg at h1
      exact ⟨h1.1, h1.2, h2, (Except.ok.inj h).symm⟩

theorem windowAt_eq_drop_take {w : Nat} {l : List ℚ} {i : Nat} (hw : w ≤ i + 1) :
    windowAt w l i = (l.drop (i + 1 - w)).take w := by
  rw [windowAt, List.drop_take]
  congr 1
  omega

theorem length_windowAt {w : Nat} {l : List ℚ} {i : Nat}
    (hi : i < l.length) (hw : w ≤ i + 1) :
    (windowAt w l i).length = w := by
  rw [windowAt]
  simp only [List.length_drop, List.length_take]
  omega

theorem windowAt_replicate {w n : Nat} {c : ℚ} {i : Nat}
    (hi : i < n) (hw : w ≤ i + 1) :
    windowAt w (List.replicate n c) i = List.replicate w c := by
  rw [windowAt, List.take_replicate, List.drop_replicate]
  congr 1
  omega

theorem listMean_replicate {n : Nat} (hn : n ≠ 0) (c : ℚ) :
    listMean (List.replicate n c) = c := by
  rw [listMean, List.sum_replicate, List.length_replicate, nsmul_eq_mul]
  rw [mul_comm, mul_div_assoc, div_self (by exact_mod_cast hn), mul_one]

theorem sampleVar_replicate {n : Nat} (hn : n ≠ 0) (c : ℚ) :
    sampleVar (List.replicate n c) = 0 := by
  rw [sampleVar, listMean_replicate hn, List.map_replicate]
  simp

theorem sampleVar_nonneg (l : List ℚ) : 0 ≤ sampleVar l := by
  rw [sampleVar]
  rcases Nat.eq_zero_or_pos l.length with h | h
  · rw [List.length_eq_zero.mp h]
    simp
  · apply div_nonneg
    · exact List.sum_nonneg (by
        intro x hx
        rw [List.mem_map] at hx
        obtain ⟨y, _, hy⟩ := hx
        rw [← hy]
        positivity)
    · have h1 : (1 : ℚ) ≤ (l.length : ℚ) := by exact_mod_cast h
      linarith

theorem sampleStd_nonneg (l : List ℚ) : 0 ≤ sampleStd l :=
  Real.sqrt_nonneg _

theorem indicator_sum_eq_countP (l : List ℚ) (v : ℚ) :
    (l.map (fun x => if x ≤ v then (1 : ℚ) else 0)).sum
      = l.countP (fun x => decide (x ≤ v)) := by
  induction l with
  | nil => simp
  | cons a tl ih =>
    by_cases h : a ≤ v
    · simp [List.countP_cons, h, ih]
      ring
    · simp [List.countP_cons, h, ih]

@[simp] theorem computeTable_index (rows : List (Timestamp × ℚ × ℚ)) :
    (computeTable rows).index = rows.map Prod.fst := rfl

@[simp] theorem computeTable_VIX (rows : List (Timestamp × ℚ × ℚ)) :
    (computeTable rows).VIX = rows.map (fun r => r.2.1) := rfl

@[simp] theorem computeTable_SP500 (rows : List (Timestamp × ℚ × ℚ)) :
    (computeTable rows).SP500 = rows.map (fun r => r.2.2) := rfl

@[simp] theorem computeTable_Ratio (rows : List (Timestamp × ℚ × ℚ)) :
    (computeTable rows).Ratio = rows.map (fun r => r.2.1 / r.2.2 * 1000) := rfl

@[simp] theorem computeTable_Ratio_MA_20 (rows : List (Timestamp × ℚ × ℚ)) :
    (computeTable rows).Ratio_MA_20
      = rollingMean 20 (rows.map (fun r => r.2.1 / r.2.2 * 1000)) := rfl

@[simp] theorem computeTable_BB_Middle (rows : List (Timestamp × ℚ × ℚ)) :
    (computeTable rows).BB_Middle
      = rollingMean 20 (rows.map (fun r => r.2.1 / r.2.2 * 1000)) := rfl

@[simp] theorem computeTable_BB_Upper (rows : List (Timestamp × ℚ × ℚ)) :
    (computeTable rows).BB_Upper
      = bollingerUpper 2 (rows.map (fun r => r.2.1 / r.2.2 * 1000)) := rfl

@[simp] theorem computeTable_BB_Lower (rows : List (Timestamp × ℚ × ℚ)) :
    (computeTable rows).BB_Lower
      = bollingerLower 2 (rows.map (fun r => r.2.1 / r.2.2 * 1000)) := rfl

/-! ### Claims -/

/-- C6: if either fetched price sequence is empty the pipeline returns
the download-failure error and no table, if two non-empty sequences
align to an empty intersection it returns the distinct no-valid-data
error and no table, and those two user-visible messages are distinct;
in either error state no downstream computation is performed (no
`Table` value is produced at all). -/
theorem c6_empty_inputs_no_data :
    (∀ v s : PriceSeries, v = [] ∨ s = [] →
        get_data v s = .error .downloadFailed)
  ∧ (∀ v s : PriceSeries, v ≠ [] → s ≠ [] → alignSeries v s = [] →
        get_data v s = .error .noValidData)
  ∧ ErrMsg.downloadFailed ≠ ErrMsg.noValidData := by
  refine ⟨?_, ?_, by decide⟩
  · intro v s h
    rcases h with h | h <;> subst h <;> simp [get_data]
  · intro v s hv hs hal
    simp [get_data, hv, hs, hal]

/-- Witness for C6 at concrete inputs: an empty first download, and two
non-empty downloads with disjoint timestamps. -/
theorem c6_empty_inputs_no_data_witness :
    get_data [] [((0 : Timestamp), some (1 : ℚ))] = .error .downloadFailed
  ∧ get_data [((0 : Timestamp), some (1 : ℚ))]
      [((1 : Timestamp), some (1 : ℚ))] = .error .noValidData :=
  ⟨c6_empty_inputs_no_data.1 _ _ (Or.inl rfl),
   c6_empty_inputs_no_data.2.1 _ _ (by simp) (by simp) (by decide)⟩

/-- C8: the four display toggles never change the computed table: two
app runs over the same fetched inputs that differ only in the toggles
produce the same `get_data` result — the toggles only select which chart
traces are drawn. -/
theorem c8_toggles_presentation_only (tg₁ tg₂ : Toggles)
    (v s : PriceSeries) : (appRun tg₁ v s).1 = (appRun tg₂ v s).1 := rfl

/-- C9 fails on the code (evaluated at the failing input): with exactly
one aligned row `get_data` succeeds and `main`'s non-empty guard passes,
but the previous-value metric access `iloc[-2]` is out of bounds, and
since `main` has no try/except the IndexError escapes: the pass crashes
(`none`) instead of ending in a user-visible message. -/
theorem c9_one_row_table_crashes :
    (get_data [((0 : Timestamp), some (10 : ℚ))]
        [((0 : Timestamp), some (4000 : ℚ))]).map Table.index = .ok [0]
  ∧ iloc (computeTable (alignSeries [((0 : Timestamp), some (10 : ℚ))]
        [((0 : Timestamp), some (4000 : ℚ))])).VIX (-2) = none
  ∧ mainRun [((0 : Timestamp), some (10 : ℚ))]
      [((0 : Timestamp), some (4000 : ℚ))] = none :=
  ⟨rfl, rfl, rfl⟩

/-- C10: whenever `get_data` returns a table rather than an error, the
table is non-empty, all eight columns are defined over the same
timestamp index, and every VIX / SP500 entry is a plain value that
originates from a present (non-NaN) input entry; the error state is
signalled only through the `Except.error` (None) result. -/
theorem c10_ok_table_wellformed (v s : PriceSeries) (t : Table)
    (h : get_data v s = .ok t) :
    t.index ≠ []
  ∧ t.VIX.length = t.index.length
  ∧ t.SP500.length = t.index.length
  ∧ t.Ratio.length = t.index.length
  ∧ t.Ratio_MA_20.length = t.index.length
  ∧ t.BB_Middle.length = t.index.length
  ∧ t.BB_Upper.length = t.index.length
  ∧ t.BB_Lower.length = t.index.length
  ∧ (∀ x ∈ t.VIX, ∃ p ∈ v, p.2 = some x)
  ∧ (∀ x ∈ t.SP500, ∃ p ∈ s, p.2 = some x) := by
  obtain ⟨hv, hs, hal, ht⟩ := get_data_eq_ok h
  subst ht
  refine ⟨?_, ?_, ?_, ?_, ?_, ?_, ?_, ?_, ?_, ?_⟩
  · simpa using hal
  · simp
  · simp
  · simp
  · simp [length_rollingMean]
  · simp [length_rollingMean]
  · simp [bollingerUpper, length_optionZipWith, length_rollingMean,
      length_rollingStd]
  · simp [bollingerLower, length_optionZipWith, length_rollingMean,
      length_rollingStd]
  · intro x hx
    rw [computeTable_VIX, List.mem_map] at hx
    obtain ⟨r, hr, hrx⟩ := hx
    exact ⟨(r.1, some r.2.1), (mem_alignSeries hr).1, by rw [hrx]⟩
  · intro x hx
    rw [computeTable_SP500, List.mem_map] at hx
    obtain ⟨r, hr, hrx⟩ := hx
    exact ⟨(r.1, some r.2.2), (mem_alignSeries hr).2, by rw [hrx]⟩

/-- Witness for C10 at a concrete one-row input. -/
theorem c10_ok_table_wellformed_witness :
    (computeTable (alignSeries [((0 : Timestamp), some (10 : ℚ))]
        [((0 : Timestamp), some (4000 : ℚ))])).index ≠ []
  ∧ (computeTable (alignSeries [((0 : Timestamp), some (10 : ℚ))]
        [((0 : Timestamp), some (4000 : ℚ))])).VIX.length
      = (computeTable (alignSeries [((0 : Timestamp), some (10 : ℚ))]
        [((0 : Timestamp), some (4000 : ℚ))])).index.length := by
  have h := c10_ok_table_wellformed
    [((0 : Timestamp), some (10 : ℚ))] [((0 : Timestamp), some (4000 : ℚ))]
    (computeTable (alignSeries [((0 : Timestamp), some (10 : ℚ))]
      [((0 : Timestamp), some (4000 : ℚ))])) rfl
  exact ⟨h.1, h.2.1⟩

/-- C2 counterexample: with SP500 equal to 0 at timestamp 1, the aligned
series keeps the (1, 20, 0) row and the computed ratio column still has
an entry for it (two entries, index [0, 1]): the valueB = 0 row is not
excluded from the ratio series. -/
theorem c2_zero_valueB_row_retained :
    alignSeries [((0 : Timestamp), some (20 : ℚ)), (1, some 20)]
        [((0 : Timestamp), some (4000 : ℚ)), (1, some 0)]
      = [(0, 20, 4000), (1, 20, 0)]
  ∧ (get_data [((0 : Timestamp), some (20 : ℚ)), (1, some 20)]
        [((0 : Timestamp), some (4000 : ℚ)), (1, some 0)]).map
      (fun t => (t.index, t.Ratio.length)) = .ok ([0, 1], 2) :=
  ⟨by decide, rfl⟩

/-- C2 (amended): every aligned row contributes a ratio entry — rows with
valueB = 0 are retained (the division is total, nothing crashes), not
excluded — and at every position whose valueB is non-zero the ratio
equals (valueA / valueB) * 1000. -/
theorem c2_ratio_formula (v s : PriceSeries) (t : Table)
    (h : get_data v s = .ok t) :
    t.Ratio.length = t.index.length
  ∧ ∀ i : Nat, ∀ a b : ℚ, t.VIX[i]? = some a → t.SP500[i]? = some b →
      b ≠ 0 → t.Ratio[i]? = some (a / b * 1000) := by
  obtain ⟨-, -, -, ht⟩ := get_data_eq_ok h
  subst ht
  refine ⟨by simp, ?_⟩
  intro i a b ha hb _
  rw [computeTable_VIX, List.getElem?_map] at ha
  rw [computeTable_SP500, List.getElem?_map] at hb
  rw [computeTable_Ratio, List.getElem?_map]
  obtain ⟨r, hr, hra⟩ := Option.map_eq_some'.mp ha
  obtain ⟨r', hr', hrb⟩ := Option.map_eq_some'.mp hb
  rw [hr', Option.some.injEq] at hr
  subst hr
  rw [hr', Option.map_some', hra, hrb]

/-- Witness for C2 at the spec's concrete example: valueA = 20 and
valueB = 4000 give ratio exactly 5. -/
theorem c2_ratio_formula_witness :
    (computeTable (alignSeries [((0 : Timestamp), some (20 : ℚ))]
        [((0 : Timestamp), some (4000 : ℚ))])).Ratio[0]? = some 5 := by
  have h := (c2_ratio_formula [((0 : Timestamp), some (20 : ℚ))]
      [((0 : Timestamp), some (4000 : ℚ))]
      (computeTable (alignSeries [((0 : Timestamp), some (20 : ℚ))]
        [((0 : Timestamp), some (4000 : ℚ))])) rfl).2 0 20 4000 rfl rfl
      (by norm_num)
  rw [h]
  norm_num

/-- C3: with window 20 the moving-average column is NaN (undefined) at
every index i < 19 and, at every index 19 ≤ i < n, equals the
arithmetic mean of ratio[i-19..i], i.e. the sum of those 20 entries
divided by 20. -/
theorem c3_moving_average (l : List ℚ) (i : Nat) (hi : i < l.length) :
    (i < 19 → (rollingMean 20 l)[i]? = some none)
  ∧ (19 ≤ i → (rollingMean 20 l)[i]? =
      some (some (((l.drop (i - 19)).take 20).sum / 20))) := by
  constructor
  · intro h
    exact rollingMean_getElem?_of_lt hi (by omega)
  · intro h
    rw [rollingMean_getElem?_of_ge hi (by omega)]
    have hlen : (windowAt 20 l i).length = 20 := length_windowAt hi (by omega)
    have hw : windowAt 20 l i = (l.drop (i - 19)).take 20 := by
      rw [windowAt_eq_drop_take (by omega : 20 ≤ i + 1)]
      have he : i + 1 - 20 = i - 19 := by omega
      rw [he]
    rw [listMean, hlen, hw]
    norm_num

/-- Witness for C3 on the series 0, 1, ..., 19: undefined at index 5,
and at index 19 the mean of all twenty values. -/
theorem c3_moving_average_witness :
    (rollingMean 20 ((List.range 20).map (fun n : Nat => (n : ℚ))))[5]? = some none
  ∧ (rollingMean 20 ((List.range 20).map (fun n : Nat => (n : ℚ))))[19]? =
      some (some
        (((((List.range 20).map (fun n : Nat => (n : ℚ))).drop (19 - 19)).take 20).sum / 20)) :=
  ⟨(c3_moving_average _ 5 (by rw [List.length_map, List.length_range]; omega)).1
      (by norm_num),
   (c3_moving_average _ 19 (by rw [List.length_map, List.length_range]; omega)).2
      (by norm_num)⟩

/-- C5: if the first fetched series has strictly increasing timestamps,
the aligned series is strictly increasing in timestamp, every aligned
row's timestamp occurs in both inputs (and its values are plain, non-NaN
rationals by construction), and its length is at most the minimum of the
two input lengths. -/
theorem c5_aligned_series (a b : PriceSeries)
    (ha : (a.map Prod.fst).Pairwise (· < ·)) :
    ((alignSeries a b).map Prod.fst).Pairwise (· < ·)
  ∧ (∀ r ∈ alignSeries a b, r.1 ∈ a.map Prod.fst ∧ r.1 ∈ b.map Prod.fst)
  ∧ (alignSeries a b).length ≤ min a.length b.length := by
  have hsub := alignSeries_keys_sublist a b
  have hpair : ((alignSeries a b).map Prod.fst).Pairwise (· < ·) :=
    ha.sublist hsub
  have hmem : ∀ r ∈ alignSeries a b,
      r.1 ∈ a.map Prod.fst ∧ r.1 ∈ b.map Prod.fst := by
    intro r hr
    obtain ⟨h1, h2⟩ := mem_alignSeries hr
    exact ⟨List.mem_map_of_mem Prod.fst h1, List.mem_map_of_mem Prod.fst h2⟩
  refine ⟨hpair, hmem, le_min ?_ ?_⟩
  · calc (alignSeries a b).length
        = ((alignSeries a b).map Prod.fst).length := (List.length_map _ _).symm
      _ ≤ (a.map Prod.fst).length := hsub.length_le
      _ = a.length := List.length_map _ _
  · have hnodup : ((alignSeries a b).map Prod.fst).Nodup :=
      hpair.imp (fun h => ne_of_lt h)
    have hsubset : (alignSeries a b).map Prod.fst ⊆ b.map Prod.fst := by
      intro x hx
      rw [List.mem_map] at hx
      obtain ⟨r, hr, hrx⟩ := hx
      rw [← hrx]
      exact (hmem r hr).2
    calc (alignSeries a b).length
        = ((alignSeries a b).map Prod.fst).length := (List.length_map _ _).symm
      _ ≤ (b.map Prod.fst).length :=
        (List.subperm_of_subset hnodup hsubset).length_le
      _ = b.length := List.length_map _ _

/-- Witness for C5 at concrete inputs with timestamps {0, 1} and {1}. -/
theorem c5_aligned_series_witness :
    ((alignSeries [((0 : Timestamp), some (1 : ℚ)), (1, some 2)]
        [((1 : Timestamp), some (3 : ℚ))]).map Prod.fst).Pairwise (· < ·)
  ∧ (alignSeries [((0 : Timestamp), some (1 : ℚ)), (1, some 2)]
        [((1 : Timestamp), some (3 : ℚ))]).length ≤
      min ([((0 : Timestamp), some (1 : ℚ)), (1, some 2)] : PriceSeries).length
        ([((1 : Timestamp), some (3 : ℚ))] : PriceSeries).length := by
  have h := c5_aligned_series
    [((0 : Timestamp), some (1 : ℚ)), (1, some 2)]
    [((1 : Timestamp), some (3 : ℚ))] (by decide)
  exact ⟨h.1, h.2.2⟩

/-- C7: the percentile rank of v within a series is the count of values
at most v over the total count, ×100, and it is monotone: a larger
evaluated value never gets a smaller rank over the same series. -/
theorem c7_percentile_rank (l : List ℚ) (v w : ℚ) :
    percentileRank l v
      = (l.countP (fun x => decide (x ≤ v)) : ℚ) / l.length * 100
  ∧ (w < v → percentileRank l w ≤ percentileRank l v) := by
  have hform : ∀ u : ℚ, percentileRank l u
      = (l.countP (fun x => decide (x ≤ u)) : ℚ) / l.length * 100 := by
    intro u
    rw [percentileRank, listMean, indicator_sum_eq_countP, List.length_map]
  refine ⟨hform v, fun hwv => ?_⟩
  rw [hform v, hform w]
  have hc : l.countP (fun x => decide (x ≤ w))
      ≤ l.countP (fun x => decide (x ≤ v)) := by
    apply List.countP_mono_left
    intro x _ hx
    simp only [decide_eq_true_eq] at hx ⊢
    exact le_trans hx (le_of_lt hwv)
  have hcq : (l.countP (fun x => decide (x ≤ w)) : ℚ)
      ≤ (l.countP (fun x => decide (x ≤ v)) : ℚ) := by exact_mod_cast hc
  gcongr

/-- Witness for C7 on the series [1, 2, 3] with values 1 < 2. -/
theorem c7_percentile_rank_witness :
    percentileRank [1, 2, 3] 2
      = (([1, 2, 3] : List ℚ).countP (fun x => decide (x ≤ 2)) : ℚ)
          / ([1, 2, 3] : List ℚ).length * 100
  ∧ percentileRank [1, 2, 3] 1 ≤ percentileRank [1, 2, 3] 2 :=
  ⟨(c7_percentile_rank [1, 2, 3] 2 1).1,
   (c7_percentile_rank [1, 2, 3] 2 1).2 (by norm_num)⟩

/-- C1 counterexample: on the ratio series [0, 2] the source's summary
standard deviation (`pandas .std()`, divisor n-1) is sqrt 2 while the
population standard deviation (divisor n) is 1: the two statistics
disagree, so the summary block does not compute the population one. -/
theorem c1_summary_std_not_population :
    summaryStd [0, 2] ≠ popStdSpec [0, 2] := by
  have h1 : sampleVar [0, 2] = 2 := by
    norm_num [sampleVar, listMean]
  have h2 : popVar [0, 2] = 1 := by
    norm_num [popVar, listMean]
  rw [summaryStd, sampleStd, popStdSpec, h1, h2]
  push_cast
  rw [Real.sqrt_one]
  intro hcon
  rw [Real.sqrt_eq_one] at hcon
  norm_num at hcon

/-- C1 (amended): for every ratio series with at least two values, the
summary statistic is the sample standard deviation (divisor n-1, not n):
it is nonnegative and its square times (n - 1) recovers the sum of
squared deviations from the mean. -/
theorem c1_summary_std_is_sample (l : List ℚ) (h : 2 ≤ l.length) :
    0 ≤ summaryStd l
  ∧ summaryStd l ^ 2 * ((l.length : ℝ) - 1)
      = (((l.map (fun x => (x - listMean l) ^ 2)).sum : ℚ) : ℝ) := by
  have hvar : (0 : ℝ) ≤ ((sampleVar l : ℚ) : ℝ) := by
    exact_mod_cast sampleVar_nonneg l
  refine ⟨Real.sqrt_nonneg _, ?_⟩
  rw [summaryStd, sampleStd, Real.sq_sqrt hvar, sampleVar]
  have h2 : (2 : ℝ) ≤ (l.length : ℝ) := by exact_mod_cast h
  have hn : (l.length : ℝ) - 1 ≠ 0 := by
    intro hzero
    linarith
  push_cast
  field_simp

/-- Witness for C1 (amended) at the two-point series [0, 2]. -/
theorem c1_summary_std_is_sample_witness :
    0 ≤ summaryStd [0, 2]
  ∧ summaryStd [0, 2] ^ 2 * ((([0, 2] : List ℚ).length : ℝ) - 1)
      = (((([0, 2] : List ℚ).map
            (fun x => (x - listMean [0, 2]) ^ 2)).sum : ℚ) : ℝ) :=
  c1_summary_std_is_sample [0, 2] (by norm_num)

/-- C4: at every defined index (i ≥ 19 within the series) and for every
non-negative band multiplier K, the upper band equals middle + std·K and
the lower band equals middle − std·K, hence lower band ≤ middle band ≤
upper band; and on a constant series the trailing window's mean is the
constant and its standard deviation is 0, so all three bands coincide
with the constant value. -/
theorem c4_bollinger_bands (K : ℝ) (hK : 0 ≤ K) (l : List ℚ) (i : Nat)
    (h19 : 19 ≤ i) (hi : i < l.length) :
    (bollingerUpper K l)[i]?
        = some (some ((listMean (windowAt 20 l i) : ℝ)
            + sampleStd (windowAt 20 l i) * K))
  ∧ (bollingerLower K l)[i]?
        = some (some ((listMean (windowAt 20 l i) : ℝ)
            - sampleStd (windowAt 20 l i) * K))
  ∧ (rollingMean 20 l)[i]? = some (some (listMean (windowAt 20 l i)))
  ∧ (listMean (windowAt 20 l i) : ℝ) - sampleStd (windowAt 20 l i) * K
        ≤ (listMean (windowAt 20 l i) : ℝ)
  ∧ (listMean (windowAt 20 l i) : ℝ)
        ≤ (listMean (windowAt 20 l i) : ℝ) + sampleStd (windowAt 20 l i) * K
  ∧ (∀ c : ℚ, l = List.replicate l.length c →
        listMean (windowAt 20 l i) = c ∧ sampleStd (windowAt 20 l i) = 0) := by
  have hm := rollingMean_getElem?_of_ge (w := 20) hi (by omega)
  have hs := rollingStd_getElem?_of_ge (w := 20) hi (by omega)
  have hsn : 0 ≤ sampleStd (windowAt 20 l i) := sampleStd_nonneg _
  have hKs : 0 ≤ sampleStd (windowAt 20 l i) * K := mul_nonneg hsn hK
  refine ⟨?_, ?_, hm, by linarith, by linarith, ?_⟩
  · rw [bollingerUpper]
    exact optionZipWith_getElem? _ hm hs
  · rw [bollingerLower]
    exact optionZipWith_getElem? _ hm hs
  · intro c hc
    have hwin : windowAt 20 l i = List.replicate 20 c := by
      conv_lhs => rw [hc]
      exact windowAt_replicate hi (by omega)
    refine ⟨?_, ?_⟩
    · rw [hwin]
      exact listMean_replicate (by norm_num) c
    · rw [hwin, sampleStd, sampleVar_replicate (by norm_num) c]
      simp

/-- Witness for C4 with K = 2 on the constant series of twenty 10s: both
bands and the middle at index 19 all equal 10 (the spec's constant-series
scenario). -/
theorem c4_bollinger_bands_witness :
    (bollingerUpper 2 (List.replicate 20 (10 : ℚ)))[19]?
        = some (some ((10 : ℚ) : ℝ))
  ∧ (bollingerLower 2 (List.replicate 20 (10 : ℚ)))[19]?
        = some (some ((10 : ℚ) : ℝ))
  ∧ (rollingMean 20 (List.replicate 20 (10 : ℚ)))[19]?
        = some (some (10 : ℚ)) := by
  obtain ⟨hu, hlo, hmid, -, -, hconst⟩ :=
    c4_bollinger_bands 2 (by norm_num) (List.replicate 20 (10 : ℚ)) 19
      (by norm_num) (by simp)
  obtain ⟨hmean, hstd⟩ := hconst 10 (by simp)
  refine ⟨?_, ?_, ?_⟩
  · rw [hu, hmean, hstd]
    norm_num
  · rw [hlo, hmean, hstd]
    norm_num
  · rw [hmid, hmean]
